import Mathlib

/-!
Verification development for the `celerybeatredis` task persistence layer
(`celerybeatredis/task.py`).  The Python classes `Interval`, `Crontab` and
`PeriodicTask` are shallowly embedded: Python attribute values are modelled by
the inductive type `Value`, the Redis database by an association list `Store`,
and fallible Python code by `Except PyErr`.

The JSON codec (`DateTimeEncoder` / `DateTimeDecoder` from the repository's
`decoder` module) is not part of the given sources; it is modelled from the
spec as a reversible textual encoding of attribute mappings in which timestamp
values carry their own tag distinguishing them from plain strings.
-/

namespace CeleryBeatRedis

/-- Python exceptions that the embedded code can raise. -/
inductive PyErr where
  | nameError (n : String)
  | attributeError (n : String)
  | typeError (msg : String)
  | validationError (msg : String)
  | scheduleConstructionError (msg : String)
deriving DecidableEq

/-- Attribute values of a task record: the JSON-representable values plus a
tagged timestamp variant (`vTime`), kept distinct from plain strings as the
spec requires of the date/time codec. -/
inductive Value where
  | vNull : Value
  | vBool : Bool → Value
  | vInt : Int → Value
  | vStr : String → Value
  | vTime : Nat → Value
  | vList : List Value → Value
  | vMap : List (String × Value) → Value

/-- Modelled from the spec: self-delimiting textual encoding of a natural
number (used by the record codec for lengths and timestamps). -/
def encNat (n : Nat) : List Char :=
  List.replicate n 'I' ++ [';']

def decNat : List Char → Option (Nat × List Char)
  | [] => none
  | c :: cs =>
    if c = ';' then some (0, cs)
    else if c = 'I' then
      match decNat cs with
      | some (n, rest) => some (n + 1, rest)
      | none => none
    else none

def encInt : Int → List Char
  | Int.ofNat n => '+' :: encNat n
  | Int.negSucc n => '-' :: encNat n

def decInt : List Char → Option (Int × List Char)
  | [] => none
  | c :: cs =>
    if c = '+' then
      match decNat cs with
      | some (n, rest) => some (Int.ofNat n, rest)
      | none => none
    else if c = '-' then
      match decNat cs with
      | some (n, rest) => some (Int.negSucc n, rest)
      | none => none
    else none

/-- Length-prefixed encoding of a character sequence. -/
def encChars (s : List Char) : List Char :=
  encNat s.length ++ s

def decChars (cs : List Char) : Option (List Char × List Char) :=
  match decNat cs with
  | some (n, rest) => if n ≤ rest.length then some (rest.take n, rest.drop n) else none
  | none => none

mutual

/-- Modelled from the spec: `encode(task record) -> text`.  Serializes one
attribute value; maps and lists are length-prefixed, timestamps carry the
tag character `d`, strings the tag `s`, so decoding can tell them apart. -/
def encodeVal : Value → List Char
  | .vNull => ['n']
  | .vBool true => ['t']
  | .vBool false => ['f']
  | .vInt i => 'i' :: encInt i
  | .vStr s => 's' :: encChars s.data
  | .vTime t => 'd' :: encNat t
  | .vList xs => 'l' :: (encNat xs.length ++ encodeArr xs)
  | .vMap m => 'm' :: (encNat m.length ++ encodePairs m)

def encodeArr : List Value → List Char
  | [] => []
  | x :: xs => encodeVal x ++ encodeArr xs

def encodePairs : List (String × Value) → List Char
  | [] => []
  | (k, v) :: m => encChars k.data ++ encodeVal v ++ encodePairs m

end

/-- Decode `n` consecutive values with the supplied element decoder. -/
def decodeListN (dec : List Char → Option (Value × List Char)) :
    Nat → List Char → Option (List Value × List Char)
  | 0, cs => some ([], cs)
  | n + 1, cs =>
    match dec cs with
    | some (v, rest) =>
      match decodeListN dec n rest with
      | some (xs, rest2) => some (v :: xs, rest2)
      | none => none
    | none => none

/-- Decode `n` consecutive key/value pairs with the supplied value decoder. -/
def decodePairsN (dec : List Char → Option (Value × List Char)) :
    Nat → List Char → Option (List (String × Value) × List Char)
  | 0, cs => some ([], cs)
  | n + 1, cs =>
    match decChars cs with
    | some (k, rest) =>
      match dec rest with
      | some (v, rest2) =>
        match decodePairsN dec n rest2 with
        | some (m, rest3) => some ((String.mk k, v) :: m, rest3)
        | none => none
      | none => none
    | none => none

/-- One step of the value decoder: dispatch on the tag character, recursing
through the supplied decoder for nested values. -/
def decodeValStep (dec : List Char → Option (Value × List Char)) :
    List Char → Option (Value × List Char)
  | 'n' :: cs => some (.vNull, cs)
  | 't' :: cs => some (.vBool true, cs)
  | 'f' :: cs => some (.vBool false, cs)
  | 'i' :: cs =>
    match decInt cs with
    | some (i, rest) => some (.vInt i, rest)
    | none => none
  | 's' :: cs =>
    match decChars cs with
    | some (s, rest) => some (.vStr (String.mk s), rest)
    | none => none
  | 'd' :: cs =>
    match decNat cs with
    | some (t, rest) => some (.vTime t, rest)
    | none => none
  | 'l' :: cs =>
    match decNat cs with
    | some (n, rest) =>
      match decodeListN dec n rest with
      | some (xs, rest2) => some (.vList xs, rest2)
      | none => none
    | none => none
  | 'm' :: cs =>
    match decNat cs with
    | some (n, rest) =>
      match decodePairsN dec n rest with
      | some (m, rest2) => some (.vMap m, rest2)
      | none => none
    | none => none
  | _ => none

/-- Fuelled value decoder; the fuel only bounds nesting depth. -/
def decodeVal : Nat → List Char → Option (Value × List Char)
  | 0, _ => none
  | fuel + 1, cs => decodeValStep (decodeVal fuel) cs

/-- Modelled from the spec: `decode(text) -> mapping`, the inverse of
`encode`; fails (returns `none`, the model of `JSONDecodeError`) when the
text is not a complete well-formed record. -/
def json_loads (s : List Char) : Option Value :=
  match decodeVal (s.length + 1) s with
  | some (v, []) => some v
  | _ => none

theorem decNat_encNat (n : Nat) (rest : List Char) :
    decNat (encNat n ++ rest) = some (n, rest) := by
  induction n with
  | zero => simp [encNat, decNat]
  | succ n ih =>
    have h : encNat (n + 1) ++ rest = 'I' :: (encNat n ++ rest) := by
      simp [encNat, List.replicate_succ]
    rw [h]
    simp [decNat, ih]

theorem decInt_encInt (i : Int) (rest : List Char) :
    decInt (encInt i ++ rest) = some (i, rest) := by
  cases i with
  | ofNat n => simp [encInt, decInt, decNat_encNat]
  | negSucc n => simp [encInt, decInt, decNat_encNat]

theorem take_append_len (s t : List Char) : (s ++ t).take s.length = s := by
  induction s with
  | nil => rfl
  | cons c s ih => simp [List.take, ih]

theorem drop_append_len (s t : List Char) : (s ++ t).drop s.length = t := by
  induction s with
  | nil => rfl
  | cons c s ih => simp [List.drop, ih]

theorem string_mk_data (s : String) : String.mk s.data = s := rfl

theorem string_data_nil (s : String) (h : s.data = []) : s = "" :=
  congrArg String.mk h

theorem decChars_encChars (s : List Char) (rest : List Char) :
    decChars (encChars s ++ rest) = some (s, rest) := by
  simp only [encChars, List.append_assoc, decChars, decNat_encNat]
  rw [if_pos (by simp)]
  rw [take_append_len, drop_append_len]

theorem encodeVal_length_pos (v : Value) : 0 < (encodeVal v).length := by
  cases v with
  | vBool b => cases b <;> simp [encodeVal]
  | _ => simp [encodeVal]

theorem encodeArr_mem_le (xs : List Value) (x : Value) (hx : x ∈ xs) :
    (encodeVal x).length ≤ (encodeArr xs).length := by
  induction xs with
  | nil => cases hx
  | cons y ys ih =>
    rcases hx with _ | hx
    · simp [encodeArr]
    · have := ih (by assumption)
      simp only [encodeArr, List.length_append]
      omega

theorem encodePairs_mem_le (m : List (String × Value)) (p : String × Value) (hp : p ∈ m) :
    (encodeVal p.2).length ≤ (encodePairs m).length := by
  induction m with
  | nil => cases hp
  | cons q qs ih =>
    rcases hp with _ | hp
    · simp only [encodePairs, List.length_append]
      omega
    · have := ih (by assumption)
      obtain ⟨k, v⟩ := q
      simp only [encodePairs, List.length_append]
      omega

theorem decodeListN_encodeArr (xs : List Value) (f : Nat)
    (H : ∀ x ∈ xs, ∀ rest, decodeVal f (encodeVal x ++ rest) = some (x, rest))
    (rest : List Char) :
    decodeListN (decodeVal f) xs.length (encodeArr xs ++ rest) = some (xs, rest) := by
  induction xs with
  | nil => simp [encodeArr, decodeListN]
  | cons x xs ih =>
    have h1 := H x (by simp) (encodeArr xs ++ rest)
    have h2 := ih (fun y hy rest' => H y (by simp [hy]) rest')
    simp only [encodeArr, List.append_assoc, List.length_cons, decodeListN, h1, h2]

theorem decodePairsN_encodePairs (m : List (String × Value)) (f : Nat)
    (H : ∀ p ∈ m, ∀ rest, decodeVal f (encodeVal p.2 ++ rest) = some (p.2, rest))
    (rest : List Char) :
    decodePairsN (decodeVal f) m.length (encodePairs m ++ rest) = some (m, rest) := by
  induction m with
  | nil => simp [encodePairs, decodePairsN]
  | cons q qs ih =>
    obtain ⟨k, v⟩ := q
    have h1 := H (k, v) (by simp) (encodePairs qs ++ rest)
    have h2 := ih (fun p hp rest' => H p (by simp [hp]) rest')
    simp only [encodePairs, List.append_assoc, List.length_cons, decodePairsN,
      decChars_encChars, h1, h2, string_mk_data]

theorem decodeVal_encodeVal : ∀ (N : Nat) (v : Value), (encodeVal v).length ≤ N →
    ∀ (fuel : Nat) (rest : List Char), (encodeVal v).length ≤ fuel →
    decodeVal fuel (encodeVal v ++ rest) = some (v, rest) := by
  intro N
  induction N with
  | zero =>
    intro v hv
    have := encodeVal_length_pos v
    omega
  | succ N ih =>
    intro v hv fuel rest hfuel
    have hpos := encodeVal_length_pos v
    obtain ⟨f, rfl⟩ : ∃ f, fuel = f + 1 := ⟨fuel - 1, by omega⟩
    cases v with
    | vNull => simp [encodeVal, decodeVal, decodeValStep]
    | vBool b => cases b <;> simp [encodeVal, decodeVal, decodeValStep]
    | vInt i =>
      simp [encodeVal, decodeVal, decodeValStep, decInt_encInt]
    | vStr s =>
      simp [encodeVal, decodeVal, decodeValStep, decChars_encChars, string_mk_data]
    | vTime t =>
      simp [encodeVal, decodeVal, decodeValStep, decNat_encNat]
    | vList xs =>
      simp only [encodeVal, List.length_cons, List.length_append] at hv hfuel
      have hmem : ∀ x ∈ xs, (encodeVal x).length ≤ (encodeArr xs).length :=
        fun x hx => encodeArr_mem_le xs x hx
      simp only [encodeVal, List.cons_append, List.append_assoc, decodeVal, decodeValStep,
        decNat_encNat]
      rw [decodeListN_encodeArr xs f
        (fun x hx rest' => ih x (by have := hmem x hx; omega) f rest' (by have := hmem x hx; omega))
        rest]
    | vMap m =>
      simp only [encodeVal, List.length_cons, List.length_append] at hv hfuel
      have hmem : ∀ p ∈ m, (encodeVal p.2).length ≤ (encodePairs m).length :=
        fun p hp => encodePairs_mem_le m p hp
      simp only [encodeVal, List.cons_append, List.append_assoc, decodeVal, decodeValStep,
        decNat_encNat]
      rw [decodePairsN_encodePairs m f
        (fun p hp rest' => ih p.2 (by have := hmem p hp; omega) f rest' (by have := hmem p hp; omega))
        rest]

theorem json_loads_encodeVal (v : Value) : json_loads (encodeVal v) = some v := by
  unfold json_loads
  have h := decodeVal_encodeVal (encodeVal v).length v (Nat.le_refl _)
    ((encodeVal v).length + 1) [] (by omega)
  rw [List.append_nil] at h
  rw [h]

/-! ## Python value helpers -/

/-- Python truthiness of an attribute value. -/
def pyTruthy : Value → Bool
  | .vNull => false
  | .vBool b => b
  | .vInt n => n != 0
  | .vStr s => s.data.length != 0
  | .vTime _ => true
  | .vList xs => xs.length != 0
  | .vMap m => m.length != 0

/-- Python `str()` of the scalar values a schedule field can hold (per the
spec's data model the five crontab fields hold ints, strings or the
wildcard).  Container rendering is not reproduced — the placeholder
branches exist only to totalize the function — and every display theorem
below quantifies over scalar values only. -/
def pyStr : Value → String
  | .vNull => "None"
  | .vBool true => "True"
  | .vBool false => "False"
  | .vInt n => toString n
  | .vStr s => s
  | .vTime t => toString t
  | .vList _ => "[...]"
  | .vMap _ => "{...}"

/-- The values whose `str()` rendering the model reproduces faithfully. -/
def isScalar : Value → Bool
  | .vList _ => false
  | .vMap _ => false
  | _ => true

/-- Python `a or b`. -/
def pyOr (a b : Value) : Value := if pyTruthy a then a else b

/-- Python `str.replace(' ', '')`: delete every space character. -/
def stripSpaces (s : String) : String :=
  String.mk (s.data.filter (fun c => c != ' '))

/-! ## Schedules (`Interval`, `Crontab`, task.py lines 21-52) -/

structure Interval where
  every : Value
  period : Value

/-- `Interval.__init__` (task.py:23-26): `period` defaults to `'seconds'`
at the call sites that omit it. -/
def Interval.init (every period : Value) : Interval :=
  { every := every, period := period }

structure Crontab where
  minute : Value
  hour : Value
  day_of_week : Value
  day_of_month : Value
  month_of_year : Value

/-- `Crontab.__init__` (task.py:40-45): `minute` and `hour` are stored as
given (defaults `0`), while the remaining three fields go through
`value or '*'`, so any falsy value becomes the wildcard string. -/
def Crontab.init (minute hour day_of_week day_of_month month_of_year : Value) : Crontab :=
  { minute := minute, hour := hour,
    day_of_week := pyOr day_of_week (.vStr "*"),
    day_of_month := pyOr day_of_month (.vStr "*"),
    month_of_year := pyOr month_of_year (.vStr "*") }

/-- `rfield` (task.py:48): `lambda f: f and str(f).replace(' ', '') or '*'`.
A falsy `f` short-circuits `and` and the trailing `or` yields `'*'`; a
truthy `f` yields its space-stripped string form — unless that stripped
string is itself empty (falsy), in which case the trailing `or` yields
`'*'` as well. -/
def rfield (f : Value) : String :=
  if pyTruthy f then
    if pyTruthy (.vStr (stripSpaces (pyStr f))) then stripSpaces (pyStr f) else "*"
  else "*"

/-- `Crontab.__unicode__` (task.py:47-52): the five-field display string. -/
def Crontab.unicode (c : Crontab) : String :=
  rfield c.minute ++ " " ++ rfield c.hour ++ " " ++ rfield c.day_of_week ++ " " ++
    rfield c.day_of_month ++ " " ++ rfield c.month_of_year ++ " (m/h/d/dM/MY)"

/-- The schedule held in `PeriodicTask.data`: an `Interval` or a `Crontab`
instance. -/
inductive Schedule where
  | interval (i : Interval)
  | crontab (c : Crontab)

/-- Python `vars(obj)`: the attribute dictionary of a schedule instance. -/
def Schedule.vars : Schedule → Value
  | .interval i => .vMap [("every", i.every), ("period", i.period)]
  | .crontab c => .vMap [("minute", c.minute), ("hour", c.hour),
      ("day_of_week", c.day_of_week), ("day_of_month", c.day_of_month),
      ("month_of_year", c.month_of_year)]

/-! ## Keyword-argument construction (used by `set_schedule`) -/

/-- First binding of a key in a Python dict of keyword arguments. -/
def dlookup : List (String × Value) → String → Option Value
  | [], _ => none
  | (k, v) :: m, q => if k = q then some v else dlookup m q

/-- `Interval(**d)`: requires `every`, allows `period` (default
`'seconds'`); any other keyword raises `TypeError`. -/
def Interval.new (d : List (String × Value)) : Except PyErr Interval :=
  if d.all (fun kv => kv.1 == "every" || kv.1 == "period") then
    match dlookup d "every" with
    | some e => .ok (Interval.init e ((dlookup d "period").getD (.vStr "seconds")))
    | none => .error (.typeError "missing required argument: every")
  else .error (.typeError "unexpected keyword argument")

/-- `Crontab(**d)`: allows exactly the five cron fields, all optional. -/
def Crontab.new (d : List (String × Value)) : Except PyErr Crontab :=
  if d.all (fun kv => kv.1 == "minute" || kv.1 == "hour" || kv.1 == "day_of_week" ||
      kv.1 == "day_of_month" || kv.1 == "month_of_year") then
    .ok (Crontab.init ((dlookup d "minute").getD (.vInt 0)) ((dlookup d "hour").getD (.vInt 0))
      ((dlookup d "day_of_week").getD .vNull) ((dlookup d "day_of_month").getD .vNull)
      ((dlookup d "month_of_year").getD .vNull))
  else .error (.typeError "unexpected keyword argument")

/-- Argument accepted by the `schedule` property setter: a pre-built
schedule instance or a raw field mapping. -/
inductive ScheduleArg where
  | sched (s : Schedule)
  | dict (d : List (String × Value))

/-- `PeriodicTask.set_schedule` (task.py:207-225).  A pre-built `Interval`
or `Crontab` is stored as-is; a raw mapping is tried against `Interval`
then `Crontab`, `schedule_inst` keeping the last successful construction;
if both constructions raise `TypeError` the function raises (task.py:223). -/
def set_schedule (schedule : ScheduleArg) : Except PyErr Schedule :=
  match schedule with
  | .sched s => .ok s
  | .dict d =>
    let inst1 : Option Schedule :=
      match Interval.new d with
      | .ok i => some (.interval i)
      | .error _ => none
    let inst2 : Option Schedule :=
      match Crontab.new d with
      | .ok c => some (.crontab c)
      | .error _ => inst1
    match inst2 with
    | none => .error (.scheduleConstructionError "schedule matched neither Crontab nor Interval type")
    | some s => .ok s

/-! ## The task entity (`PeriodicTask`, task.py:55-240) -/

/-- Instance state of a `PeriodicTask` object.  `interval_attr` and
`crontab_attr` model the *optional* instance attributes `interval` /
`crontab`: the class body defines neither, so they exist only when passed
through `extrakwargs` (outer `none` = attribute missing, inner `none` =
attribute bound to Python `None`). -/
structure PeriodicTask where
  name : String
  task : String
  data : Schedule
  enabled : Bool
  args : List Value
  kwargs : List (String × Value)
  options : List (String × Value)
  last_run_at : Value
  total_run_count : Value
  key : String
  delete_key : String
  running : Bool
  interval_attr : Option (Option Schedule)
  crontab_attr : Option (Option Schedule)
  extra : List (String × Value)

/-- `bytes_to_str` from the `globals` module: identity on decoded strings. -/
def bytes_to_str (s : String) : String := s

/-- A Python runtime object as far as the `schedule` property is concerned:
either a live `Interval` / `Crontab` instance, or a plain value such as the
dictionary produced by `vars(...)`. -/
inductive PyObj where
  | obj (s : Schedule)
  | val (v : Value)

/-- `PeriodicTask.get_schedule` (task.py:200-205): returns `vars(self.data)`,
the attribute dictionary of the held schedule, not the schedule object. -/
def get_schedule (t : PeriodicTask) : PyObj :=
  .val (Schedule.vars t.data)

/-- `PeriodicTask.__init__` (task.py:81-119).  Lines 97-111 bind the
attributes (the schedule assignment on line 102 can raise via the property
setter); line 112 then executes `self.key = key`, and `key` is bound
neither locally nor at module level, so the constructor raises
`NameError` before `key` or `delete_key` is ever set. -/
def PeriodicTask.init (name task : String) (schedule : ScheduleArg) :
    Except PyErr PeriodicTask :=
  match set_schedule schedule with
  | .error e => .error e
  | .ok _data => .error (.nameError "key")

/-- `PeriodicTask.clean` (task.py:167-175), with Python attribute lookup
and `and` / `or` short-circuiting made explicit:
line 170 evaluates `self.interval` (AttributeError when the attribute is
missing), and evaluates `self.crontab` only when `self.interval` is truthy;
line 173 re-reads both attributes under `or`. -/
def PeriodicTask.clean (t : PeriodicTask) : Except PyErr Unit :=
  match t.interval_attr with
  | none => .error (.attributeError "interval")
  | some iv =>
    if iv.isSome then
      match t.crontab_attr with
      | none => .error (.attributeError "crontab")
      | some cv =>
        if cv.isSome then
          .error (.validationError "Cannot define both interval and crontab schedule.")
        else
          .ok ()
    else
      match t.crontab_attr with
      | none => .error (.attributeError "crontab")
      | some cv =>
        if cv.isSome then .ok ()
        else .error (.validationError "Must defined either interval or crontab schedule.")

/-- The local names bound inside `PeriodicTask.from_dict` (task.py:177-188):
only the parameter `d`. -/
def from_dict_locals : List String := ["d"]

/-- `PeriodicTask.from_dict` (task.py:177-188): a `@staticmethod` whose body
begins with `otherdict = other.__dict__` (line 185); `other` is not among
the bound names (nor is `self`, used on line 188), so every call raises
`NameError` before any field is merged. -/
def from_dict (d : Value) : Except PyErr Unit :=
  if from_dict_locals.contains "other" then .ok () else .error (.nameError "other")

/-! ## The Redis store and the store operations (task.py:121-165) -/

/-- The key-value backend: keys to stored record text, unique keys. -/
abbrev Store : Type := List (String × List Char)

/-- `rdb.exists(k)`. -/
def rdbExists (st : Store) (k : String) : Bool :=
  (List.any st (fun kv => kv.1 == k))

/-- `rdb.get(k)`. -/
def rdbGet : Store → String → Option (List Char)
  | [], _ => none
  | (k0, v0) :: st, k => if k0 = k then some v0 else rdbGet st k

/-- `rdb.set(k, v)`: per-key last-write-wins. -/
def rdbSet : Store → String → List Char → Store
  | [], k, v => [(k, v)]
  | (k0, v0) :: st, k, v => if k0 = k then (k0, v) :: st else (k0, v0) :: rdbSet st k v

/-- `rdb.delete(k)`. -/
def rdbDel (st : Store) (k : String) : Store :=
  List.filter (fun kv => kv.1 != k) st

/-- `rdb.keys(pat + '*')`: every stored key with the given leading text. -/
def rdbKeys (st : Store) (pat : String) : List String :=
  (List.map Prod.fst st).filter (fun k => pat.data.isPrefixOf k.data)

/-- The serialized dictionary built by `save` (task.py:145-152): a deep copy
of `self.__dict__` in which a truthy `interval` / `crontab` attribute is
replaced by its own `__dict__`, and from which `key` is removed. -/
def PeriodicTask.selfDict (t : PeriodicTask) : List (String × Value) :=
  [("task", .vStr t.task), ("enabled", .vBool t.enabled), ("data", Schedule.vars t.data),
   ("args", .vList t.args), ("kwargs", .vMap t.kwargs), ("options", .vMap t.options),
   ("last_run_at", t.last_run_at), ("total_run_count", t.total_run_count),
   ("name", .vStr t.name), ("delete_key", .vStr t.delete_key), ("running", .vBool t.running)]
  ++ (match t.interval_attr with
      | none => []
      | some none => [("interval", Value.vNull)]
      | some (some s) => [("interval", Schedule.vars s)])
  ++ (match t.crontab_attr with
      | none => []
      | some none => [("crontab", Value.vNull)]
      | some (some s) => [("crontab", Schedule.vars s)])
  ++ t.extra

/-- `PeriodicTask.save` (task.py:143-165): returns the Python return value
and the resulting store. -/
def PeriodicTask.save (t : PeriodicTask) (rdb : Store) : Bool × Store :=
  let self_dict := t.selfDict
  let to_be_deleted := rdbExists rdb t.delete_key
  let actually_deleted := !(rdbExists rdb (bytes_to_str t.key)) && to_be_deleted
  if actually_deleted then
    (false, rdbDel rdb t.delete_key)
  else if !to_be_deleted then
    (true, rdbSet rdb t.key (encodeVal (.vMap self_dict)))
  else
    (false, rdb)

/-- Python dict item assignment `m[k] = v`: overwrite in place or append. -/
def dictSet : List (String × Value) → String → Value → List (String × Value)
  | [], k, v => [(k, v)]
  | (k0, v0) :: m, k, v => if k0 = k then (k0, v) :: m else (k0, v0) :: dictSet m k v

/-- The mapping carried by a successfully decoded record. -/
def extractMap : Option Value → List (String × Value)
  | some (.vMap m) => m
  | _ => []

/-- Body of the `get_all_as_dict` generator loop (task.py:127-136) over an
explicit key list: a key whose text fails `json.loads` is skipped and a
warning recorded; a record that decodes to a non-mapping would make
`dct['key'] = task_key` raise `TypeError` (uncaught); a vanished key would
make `bytes_to_str(None)` fail (uncaught). -/
def get_all_aux (rdb : Store) : List String → Except PyErr (List (List (String × Value)) × List String)
  | [] => .ok ([], [])
  | k :: ks =>
    match rdbGet rdb k with
    | none => .error (.typeError "expected a bytes-like object, NoneType found")
    | some txt =>
      match json_loads txt with
      | none =>
        match get_all_aux rdb ks with
        | .ok (ds, ws) => .ok (ds, ("ERROR Reading task value at " ++ k) :: ws)
        | .error e => .error e
      | some (.vMap dct) =>
        match get_all_aux rdb ks with
        | .ok (ds, ws) => .ok (dictSet dct "key" (.vStr k) :: ds, ws)
        | .error e => .error e
      | some _ => .error (.typeError "record text does not hold a mapping")

/-- `PeriodicTask.get_all_as_dict` (task.py:121-136): enumerate the keys
under the given leading text and decode each record, yielding the decoded
mappings (each with its originating key stored under `'key'`) and the
warnings for skipped records. -/
def get_all_as_dict (rdb : Store) (kpre : String) :
    Except PyErr (List (List (String × Value)) × List String) :=
  get_all_aux rdb (rdbKeys rdb kpre)

/-- The mapping yielded for one well-formed stored record. -/
def yield1 (kv : String × List Char) : List (String × Value) :=
  dictSet (extractMap (json_loads kv.2)) "key" (.vStr kv.1)

/-- The mapping yielded for the record stored under key `k`. -/
def storeYield (rdb : Store) (k : String) : List (String × Value) :=
  dictSet (extractMap (json_loads ((rdbGet rdb k).getD []))) "key" (.vStr k)

/-! ## Sample values used by concrete instantiations -/

def sampleSchedule : Schedule := .interval (Interval.init (.vInt 5) (.vStr "seconds"))

def task0 : PeriodicTask :=
  { name := "tasks:demo", task := "demo.job", data := sampleSchedule,
    enabled := true, args := [], kwargs := [], options := [],
    last_run_at := .vNull, total_run_count := .vInt 0,
    key := "tasks:demo", delete_key := "deleted:tasks:demo", running := false,
    interval_attr := none, crontab_attr := none, extra := [] }

/-! ## Helper lemmas -/

theorem dlookup_mem (d : List (String × Value)) (q : String) (v : Value)
    (h : dlookup d q = some v) : (q, v) ∈ d := by
  induction d with
  | nil => simp [dlookup] at h
  | cons p m ih =>
    obtain ⟨k0, v0⟩ := p
    by_cases e : k0 = q
    · subst e
      simp [dlookup] at h
      simp [h]
    · simp [dlookup, e] at h
      exact List.mem_cons_of_mem _ (ih h)

theorem dlookup_dictSet (m : List (String × Value)) (k : String) (v : Value) :
    dlookup (dictSet m k v) k = some v := by
  induction m with
  | nil => simp [dictSet, dlookup]
  | cons p m ih =>
    obtain ⟨k0, v0⟩ := p
    by_cases e : k0 = k
    · simp [dictSet, e, dlookup]
    · simp [dictSet, e, dlookup, ih]

theorem rdbGet_of_nodup (st : Store) (hnd : (st.map Prod.fst).Nodup)
    (kv : String × List Char) (h : kv ∈ st) : rdbGet st kv.1 = some kv.2 := by
  induction st with
  | nil => cases h
  | cons p st ih =>
    obtain ⟨k0, v0⟩ := p
    simp only [List.map_cons, List.nodup_cons] at hnd
    rcases List.mem_cons.mp h with rfl | h
    · simp [rdbGet]
    · have hne : k0 ≠ kv.1 := by
        intro e
        exact hnd.1 (e ▸ List.mem_map_of_mem Prod.fst h)
      simp [rdbGet, hne, ih hnd.2 h]

theorem filter_true_of_all {α : Type} (p : α → Bool) (l : List α)
    (h : ∀ a ∈ l, p a = true) : l.filter p = l := by
  induction l with
  | nil => rfl
  | cons a l ih =>
    simp [List.filter, h a (by simp), ih (fun b hb => h b (by simp [hb]))]

theorem map_congr_mem {α β : Type} (f g : α → β) (l : List α)
    (h : ∀ a ∈ l, f a = g a) : l.map f = l.map g := by
  induction l with
  | nil => rfl
  | cons a l ih =>
    simp [h a (by simp), ih (fun b hb => h b (by simp [hb]))]

theorem get_all_aux_good (rdb : Store) (ks : List String)
    (h : ∀ k ∈ ks, ∃ txt m, rdbGet rdb k = some txt ∧ json_loads txt = some (.vMap m)) :
    get_all_aux rdb ks = .ok (ks.map (storeYield rdb), []) := by
  induction ks with
  | nil => rfl
  | cons k ks ih =>
    obtain ⟨txt, m, hg, hj⟩ := h k (by simp)
    have ih' := ih (fun k' hk' => h k' (by simp [hk']))
    simp [get_all_aux, hg, hj, ih', storeYield, extractMap]

theorem get_all_aux_onebad (rdb : Store) (ks1 ks2 : List String) (kb : String)
    (h1 : ∀ k ∈ ks1, ∃ txt m, rdbGet rdb k = some txt ∧ json_loads txt = some (.vMap m))
    (h2 : ∀ k ∈ ks2, ∃ txt m, rdbGet rdb k = some txt ∧ json_loads txt = some (.vMap m))
    (hb : ∃ txt, rdbGet rdb kb = some txt ∧ json_loads txt = none) :
    get_all_aux rdb (ks1 ++ kb :: ks2) =
      .ok ((ks1 ++ ks2).map (storeYield rdb), ["ERROR Reading task value at " ++ kb]) := by
  induction ks1 with
  | nil =>
    obtain ⟨txt, hg, hj⟩ := hb
    simp [get_all_aux, hg, hj, get_all_aux_good rdb ks2 h2]
  | cons k ks ih =>
    obtain ⟨txt, m, hg, hj⟩ := h1 k (by simp)
    have ih' := ih (fun k' hk' => h1 k' (by simp [hk']))
    simp only [List.cons_append, get_all_aux, hg, hj, List.append_eq]
    rw [ih']
    simp [storeYield, hg, hj, extractMap]

/-! ## Claim theorems -/

/-- C1: `save()` deletes exactly the tombstone and returns `false` when the
tombstone exists and the live key is absent; writes the serialized record
under the live key and returns `true` when no tombstone is present; and
returns `false` leaving the store untouched when tombstone and live key
both exist. -/
theorem c1_save_tombstone_protocol (rdb : Store) (t : PeriodicTask) :
    (rdbExists rdb t.delete_key = true → rdbExists rdb t.key = false →
      t.save rdb = (false, rdbDel rdb t.delete_key)) ∧
    (rdbExists rdb t.delete_key = false →
      t.save rdb = (true, rdbSet rdb t.key (encodeVal (.vMap t.selfDict)))) ∧
    (rdbExists rdb t.delete_key = true → rdbExists rdb t.key = true →
      t.save rdb = (false, rdb)) := by
  refine ⟨?_, ?_, ?_⟩
  · intro hd hk
    simp [PeriodicTask.save, bytes_to_str, hd, hk]
  · intro hd
    simp [PeriodicTask.save, bytes_to_str, hd]
  · intro hd hk
    simp [PeriodicTask.save, bytes_to_str, hd, hk]

def tombStore : Store := [("deleted:tasks:demo", ['x'])]

def bothStore : Store := [("tasks:demo", ['y']), ("deleted:tasks:demo", ['x'])]

theorem c1_save_tombstone_protocol_witness :
    task0.save tombStore = (false, rdbDel tombStore task0.delete_key) ∧
    task0.save ([] : Store) = (true, rdbSet [] task0.key (encodeVal (.vMap task0.selfDict))) ∧
    task0.save bothStore = (false, bothStore) :=
  ⟨(c1_save_tombstone_protocol tombStore task0).1 rfl rfl,
   (c1_save_tombstone_protocol [] task0).2.1 rfl,
   (c1_save_tombstone_protocol bothStore task0).2.2 rfl rfl⟩

/-- C2: the claim says every constructed task has `key = name` and
`delete_key = "deleted:" + key`; in fact `__init__` executes
`self.key = key` (task.py:112) with `key` unbound, so construction always
raises `NameError` and neither attribute is ever set. -/
theorem c2_init_name_error (name task : String) (s : Schedule) :
    PeriodicTask.init name task (.sched s) = .error (.nameError "key") := rfl

/-- C3: the claim says `validate()` succeeds for a task with exactly one
schedule set and raises `ValidationError` when neither is set; in fact
`PeriodicTask` defines no `interval` / `crontab` class attributes, so
`clean()` raises `AttributeError` on a task holding only an `interval`
attribute (it evaluates `self.crontab`), and on a task with neither
attribute (it evaluates `self.interval`). -/
theorem c3_clean_attribute_error :
    PeriodicTask.clean { task0 with
        interval_attr := some (some sampleSchedule), crontab_attr := none } =
      .error (.attributeError "crontab") ∧
    PeriodicTask.clean { task0 with interval_attr := none, crontab_attr := none } =
      .error (.attributeError "interval") :=
  ⟨rfl, rfl⟩

/-- C4 counterexample: a `Crontab` built with all defaults displays
`'* * * * * (m/h/d/dM/MY)'`, not the claimed `'0 0 * * * (m/h/d/dM/MY)'`,
because the display helper maps the falsy integer `0` to `'*'`. -/
theorem c4_crontab_default_display_counterexample :
    Crontab.unicode (Crontab.init (.vInt 0) (.vInt 0) .vNull .vNull .vNull) =
      "* * * * * (m/h/d/dM/MY)" ∧
    ("* * * * * (m/h/d/dM/MY)" : String) ≠ "0 0 * * * (m/h/d/dM/MY)" :=
  ⟨rfl, by decide⟩

/-- C4 (amended): the default `Crontab` displays `'* * * * * (m/h/d/dM/MY)'`
(every falsy field, the integer `0` included, renders as `'*'`);
`Crontab(minute=30, hour=2, day_of_week=1)` displays
`'30 2 1 * * (m/h/d/dM/MY)'`; a truthy scalar field renders as its string
form with spaces stripped — unless the stripped form is empty (a
whitespace-only string), in which case the trailing `or '*'` makes it
render `'*'` as well. -/
theorem c4_crontab_display_amended :
    Crontab.unicode (Crontab.init (.vInt 0) (.vInt 0) .vNull .vNull .vNull) =
      "* * * * * (m/h/d/dM/MY)" ∧
    Crontab.unicode (Crontab.init (.vInt 30) (.vInt 2) (.vInt 1) .vNull .vNull) =
      "30 2 1 * * (m/h/d/dM/MY)" ∧
    (∀ v : Value, pyTruthy v = false → rfield v = "*") ∧
    (∀ v : Value, isScalar v = true → pyTruthy v = true → stripSpaces (pyStr v) ≠ "" →
      rfield v = stripSpaces (pyStr v)) ∧
    (∀ v : Value, isScalar v = true → pyTruthy v = true → stripSpaces (pyStr v) = "" →
      rfield v = "*") := by
  refine ⟨rfl, rfl, ?_, ?_, ?_⟩
  · intro v hv
    simp [rfield, hv]
  · intro v _ hv hne
    have hd : (stripSpaces (pyStr v)).data ≠ [] := fun h => hne (string_data_nil _ h)
    have hcond : pyTruthy (.vStr (stripSpaces (pyStr v))) = true := by
      simp only [pyTruthy, bne_iff_ne, ne_eq]
      intro h0
      exact hd (List.length_eq_zero.mp h0)
    simp [rfield, hv, hcond]
  · intro v _ hv he
    simp only [rfield, hv, he]
    decide

theorem c4_crontab_display_amended_witness :
    rfield (.vInt 0) = "*" ∧
    rfield (.vStr "1, 5") = stripSpaces (pyStr (.vStr "1, 5")) ∧
    rfield (.vStr " ") = "*" :=
  ⟨c4_crontab_display_amended.2.2.1 (.vInt 0) rfl,
   c4_crontab_display_amended.2.2.2.1 (.vStr "1, 5") rfl rfl (by decide),
   c4_crontab_display_amended.2.2.2.2 (.vStr " ") rfl rfl rfl⟩

/-- C5: decoding an encoded value yields the value back, for every
representable attribute value; in particular for every attribute mapping,
nested schedule records, extra attributes and tagged timestamps included. -/
theorem c5_decode_encode_round_trip (x : Value) :
    json_loads (encodeVal x) = some x :=
  json_loads_encodeVal x

/-- C6: the claim says `from_dict` merges every field except `last_run_at`
and `total_run_count`; in fact `from_dict` is a `@staticmethod` whose body
reads the unbound names `other` and `self`, so every call raises
`NameError` and nothing is merged. -/
theorem c6_from_dict_name_error (d : Value) :
    from_dict d = .error (.nameError "other") := rfl

/-- C7: listing a store of N records under a common key prefix in which
exactly one record's text fails to decode yields the N-1 well-formed
records, emits exactly one warning, propagates no error, and every yielded
mapping carries its originating key under `'key'`. -/
theorem c7_list_all_skips_corrupt (kpre : String) (pre post : List (String × List Char))
    (kb : String) (tb : List Char)
    (hnd : ((pre ++ (kb, tb) :: post).map Prod.fst).Nodup)
    (hpre : ∀ kv ∈ pre ++ (kb, tb) :: post, kpre.data.isPrefixOf kv.1.data = true)
    (hgood : ∀ kv ∈ pre ++ post, ∃ m, json_loads kv.2 = some (.vMap m))
    (hbad : json_loads tb = none) :
    get_all_as_dict (pre ++ (kb, tb) :: post) kpre =
      .ok ((pre ++ post).map yield1, ["ERROR Reading task value at " ++ kb]) ∧
    ((pre ++ post).map yield1).length = (pre ++ (kb, tb) :: post).length - 1 ∧
    (["ERROR Reading task value at " ++ kb] : List String).length = 1 ∧
    (∀ kv ∈ pre ++ post, dlookup (yield1 kv) "key" = some (.vStr kv.1)) := by
  have hmemst : ∀ kv ∈ pre ++ post, kv ∈ pre ++ (kb, tb) :: post := by
    intro kv h
    rcases List.mem_append.mp h with h | h
    · exact List.mem_append.mpr (Or.inl h)
    · exact List.mem_append.mpr (Or.inr (List.mem_cons_of_mem _ h))
  have hget : ∀ kv ∈ pre ++ post, rdbGet (pre ++ (kb, tb) :: post) kv.1 = some kv.2 :=
    fun kv h => rdbGet_of_nodup _ hnd kv (hmemst kv h)
  have hyield : ∀ kv ∈ pre ++ post,
      storeYield (pre ++ (kb, tb) :: post) kv.1 = yield1 kv := by
    intro kv h
    unfold storeYield yield1
    rw [hget kv h]
    rfl
  have hkeys : rdbKeys (pre ++ (kb, tb) :: post) kpre =
      (pre ++ (kb, tb) :: post).map Prod.fst := by
    unfold rdbKeys
    exact filter_true_of_all _ _ (fun k hk => by
      obtain ⟨kv, hkv, rfl⟩ := List.mem_map.mp hk
      exact hpre kv hkv)
  have hgoodk : ∀ (l : List (String × List Char)), (∀ kv ∈ l, kv ∈ pre ++ post) →
      ∀ k ∈ l.map Prod.fst, ∃ txt m,
        rdbGet (pre ++ (kb, tb) :: post) k = some txt ∧ json_loads txt = some (.vMap m) := by
    intro l hl k hk
    obtain ⟨kv, hkv, rfl⟩ := List.mem_map.mp hk
    obtain ⟨m, hm⟩ := hgood kv (hl kv hkv)
    exact ⟨kv.2, m, hget kv (hl kv hkv), hm⟩
  have hbadget : rdbGet (pre ++ (kb, tb) :: post) kb = some tb :=
    rdbGet_of_nodup _ hnd (kb, tb) (List.mem_append.mpr (Or.inr (List.mem_cons_self _ _)))
  refine ⟨?_, ?_, rfl, ?_⟩
  · unfold get_all_as_dict
    rw [hkeys, List.map_append, List.map_cons]
    rw [get_all_aux_onebad (pre ++ (kb, tb) :: post) (pre.map Prod.fst) (post.map Prod.fst) kb
      (hgoodk pre (fun kv h => List.mem_append.mpr (Or.inl h)))
      (hgoodk post (fun kv h => List.mem_append.mpr (Or.inr h)))
      ⟨tb, hbadget, hbad⟩]
    rw [← List.map_append, List.map_map]
    rw [map_congr_mem (storeYield (pre ++ (kb, tb) :: post) ∘ Prod.fst) yield1 (pre ++ post)
      (fun kv h => hyield kv h)]
  · simp only [List.length_map, List.length_append, List.length_cons]
    omega
  · intro kv _
    exact dlookup_dictSet _ _ _

def preW : List (String × List Char) := [("t:a", encodeVal (.vMap [("task", .vStr "x")]))]

def postW : List (String × List Char) := [("t:b", encodeVal (.vMap []))]

theorem c7_list_all_skips_corrupt_witness :
    get_all_as_dict (preW ++ ("t:bad", ['z']) :: postW) "t:" =
      .ok ((preW ++ postW).map yield1, ["ERROR Reading task value at " ++ "t:bad"]) ∧
    ((preW ++ postW).map yield1).length = (preW ++ ("t:bad", ['z']) :: postW).length - 1 ∧
    (["ERROR Reading task value at " ++ "t:bad"] : List String).length = 1 ∧
    (∀ kv ∈ preW ++ postW, dlookup (yield1 kv) "key" = some (.vStr kv.1)) :=
  c7_list_all_skips_corrupt "t:" preW postW "t:bad" ['z']
    (by decide)
    (by decide)
    (by
      intro kv h
      simp [preW, postW] at h
      rcases h with rfl | rfl
      · exact ⟨[("task", .vStr "x")], rfl⟩
      · exact ⟨[], rfl⟩)
    rfl

theorem interval_new_every (d : List (String × Value)) (i : Interval)
    (h : Interval.new d = .ok i) : ∃ v, ("every", v) ∈ d := by
  rcases hd : dlookup d "every" with _ | v
  · exfalso
    unfold Interval.new at h
    rw [hd] at h
    split at h <;> simp at h
  · exact ⟨v, dlookup_mem d _ _ hd⟩

theorem interval_excludes_crontab (d : List (String × Value)) (i : Interval)
    (h : Interval.new d = .ok i) : ∃ e, Crontab.new d = .error e := by
  obtain ⟨v, hv⟩ := interval_new_every d i h
  unfold Crontab.new
  cases hall : d.all (fun kv => kv.1 == "minute" || kv.1 == "hour" || kv.1 == "day_of_week" ||
      kv.1 == "day_of_month" || kv.1 == "month_of_year") with
  | false => simp [hall]
  | true =>
    exfalso
    have := List.all_eq_true.mp hall ("every", v) hv
    simp at this

/-- C8: `set_schedule` on a raw mapping attempts `Interval` construction,
then `Crontab` construction, stores the successful one (the two keyword
shapes are mutually exclusive, so the first success is the stored one),
raises when neither construction succeeds, and stores a pre-built schedule
as-is. -/
theorem c8_set_schedule_probing (d : List (String × Value)) :
    (∀ i, Interval.new d = .ok i → set_schedule (.dict d) = .ok (.interval i)) ∧
    (∀ c, Crontab.new d = .ok c → set_schedule (.dict d) = .ok (.crontab c)) ∧
    ((∃ e, Interval.new d = .error e) → (∃ e, Crontab.new d = .error e) →
      set_schedule (.dict d) =
        .error (.scheduleConstructionError "schedule matched neither Crontab nor Interval type")) ∧
    (∀ s, set_schedule (.sched s) = .ok s) := by
  refine ⟨?_, ?_, ?_, fun s => rfl⟩
  · intro i hi
    obtain ⟨e, hc⟩ := interval_excludes_crontab d i hi
    simp [set_schedule, hi, hc]
  · intro c hc
    simp [set_schedule, hc]
  · intro h1 h2
    obtain ⟨e1, he1⟩ := h1
    obtain ⟨e2, he2⟩ := h2
    simp [set_schedule, he1, he2]

theorem c8_set_schedule_probing_witness :
    set_schedule (.dict [("every", .vInt 5)]) =
      .ok (.interval (Interval.init (.vInt 5) (.vStr "seconds"))) ∧
    set_schedule (.dict [("minute", .vInt 3)]) =
      .ok (.crontab (Crontab.init (.vInt 3) (.vInt 0) .vNull .vNull .vNull)) ∧
    set_schedule (.dict [("bogus", .vNull)]) =
      .error (.scheduleConstructionError "schedule matched neither Crontab nor Interval type") ∧
    set_schedule (.sched sampleSchedule) = .ok sampleSchedule :=
  ⟨(c8_set_schedule_probing [("every", .vInt 5)]).1 _ rfl,
   (c8_set_schedule_probing [("minute", .vInt 3)]).2.1 _ rfl,
   (c8_set_schedule_probing [("bogus", .vNull)]).2.2.1 ⟨_, rfl⟩ ⟨_, rfl⟩,
   (c8_set_schedule_probing []).2.2.2 sampleSchedule⟩

/-- C9 counterexample: after storing the concrete `Interval` schedule,
`get_schedule` returns the schedule's attribute dictionary, not the
`Schedule` value that was set. -/
theorem c9_get_schedule_counterexample :
    set_schedule (.sched sampleSchedule) = .ok sampleSchedule ∧
    get_schedule { task0 with data := sampleSchedule } ≠ .obj sampleSchedule :=
  ⟨rfl, fun h => PyObj.noConfusion h⟩

/-- C9 (amended): `get_schedule` returns `vars(self.data)`, the field
dictionary of the held schedule; setting a pre-built schedule and then
getting yields that schedule's attribute dictionary. -/
theorem c9_get_schedule_amended (t : PeriodicTask) (s : Schedule) :
    set_schedule (.sched s) = .ok s ∧
    get_schedule { t with data := s } = .val (Schedule.vars s) :=
  ⟨rfl, rfl⟩

/-- C10: the `Crontab` constructor turns every falsy `day_of_week`,
`day_of_month` or `month_of_year` value — the integer 0 included — into
the wildcard string `'*'`, so passing `day_of_week = 0` stores the same
value as leaving it unset. -/
theorem c10_crontab_falsy_wildcard (minute hour dw dm my : Value) :
    (pyTruthy dw = false → (Crontab.init minute hour dw dm my).day_of_week = .vStr "*") ∧
    (pyTruthy dm = false → (Crontab.init minute hour dw dm my).day_of_month = .vStr "*") ∧
    (pyTruthy my = false → (Crontab.init minute hour dw dm my).month_of_year = .vStr "*") ∧
    (Crontab.init minute hour (.vInt 0) dm my).day_of_week =
      (Crontab.init minute hour .vNull dm my).day_of_week := by
  refine ⟨?_, ?_, ?_, rfl⟩ <;> intro h <;> simp [Crontab.init, pyOr, h]

theorem c10_crontab_falsy_wildcard_witness :
    (Crontab.init (.vInt 0) (.vInt 0) (.vInt 0) .vNull (.vStr "")).day_of_week = .vStr "*" ∧
    (Crontab.init (.vInt 0) (.vInt 0) (.vInt 0) .vNull (.vStr "")).day_of_month = .vStr "*" ∧
    (Crontab.init (.vInt 0) (.vInt 0) (.vInt 0) .vNull (.vStr "")).month_of_year = .vStr "*" ∧
    (Crontab.init (.vInt 0) (.vInt 0) (.vInt 0) .vNull (.vStr "")).day_of_week =
      (Crontab.init (.vInt 0) (.vInt 0) .vNull .vNull (.vStr "")).day_of_week :=
  ⟨(c10_crontab_falsy_wildcard (.vInt 0) (.vInt 0) (.vInt 0) .vNull (.vStr "")).1 rfl,
   (c10_crontab_falsy_wildcard (.vInt 0) (.vInt 0) (.vInt 0) .vNull (.vStr "")).2.1 rfl,
   (c10_crontab_falsy_wildcard (.vInt 0) (.vInt 0) (.vInt 0) .vNull (.vStr "")).2.2.1 rfl,
   (c10_crontab_falsy_wildcard (.vInt 0) (.vInt 0) (.vInt 0) .vNull (.vStr "")).2.2.2⟩

end CeleryBeatRedis
